import Mathlib

/-!
Verification of the Matter ACL policy engine (matter/src/acl.rs).

The Rust module is shallowly embedded: the fixed-size arrays of optional
slots become lists of optional values, u64 subject identifiers become
naturals (all bit operations in the source are non-overflowing; the u16/u32
casts are made explicit with mod), fallible operations return Except, and
the in-place mutations of the store become functions from the entries array
to the new entries array (paired with the returned result where the source
returns one).  The persistence layer (Psm) is exercised here in its absent
configuration (new_with(false)), in which every store call succeeds, so the
persistence branches contribute no behaviour to the properties below.
-/

namespace MatterAcl

/-- Error kinds used by the ACL module (crate::error::Error, restricted to
the variants this module produces). -/
inductive Error where
  | NoSpace
  | NotFound
  | Invalid
deriving DecidableEq

/-- AuthMode enumeration from acl.rs. -/
inductive AuthMode where
  | Pase
  | Case
  | Group
  | Invalid
deriving DecidableEq

/-- Matter minimum requirement constants from acl.rs. -/
def SUBJECTS_PER_ENTRY : Nat := 4

def TARGETS_PER_ENTRY : Nat := 3

def ENTRIES_PER_FABRIC : Nat := 3

/-- Modelled from the spec: MAX_CAT_IDS_PER_NOC lives in
transport::session, which is not part of the sources here; the spec fixes
it as the protocol-mandated maximum number of CAT credentials per accessor
(three). -/
def MAX_CAT_IDS_PER_NOC : Nat := 3

/-- An accessor can have one node id plus up to MAX_CAT_IDS_PER_NOC CATs. -/
def MAX_ACCESSOR_SUBJECTS : Nat := 1 + MAX_CAT_IDS_PER_NOC

/-- Modelled from the spec: fabric::MAX_SUPPORTED_FABRICS is not part of
the sources here; the spec states the total store capacity is
entries-per-fabric times the maximum supported fabrics (three fabrics). -/
def MAX_SUPPORTED_FABRICS : Nat := 3

/-- The CAT marker used in the high bits of CAT subjects. -/
def NOC_CAT_SUBJECT_MARK : Nat := 0xFFFFFFFD00000000

def NOC_CAT_ID_MASK : Nat := 0xFFFF0000

def NOC_CAT_VERSION_MASK : Nat := 0xFFFF

/-- Is this identifier a NOC CAT. -/
def is_noc_cat (id : Nat) : Bool :=
  (id &&& NOC_CAT_SUBJECT_MARK) == NOC_CAT_SUBJECT_MARK

/-- Get the 16-bit NOC CAT id from the identifier. -/
def get_noc_cat_id (id : Nat) : Nat :=
  (id &&& NOC_CAT_ID_MASK) >>> 16

/-- Get the 16-bit NOC CAT version from the identifier. -/
def get_noc_cat_version (id : Nat) : Nat :=
  id &&& NOC_CAT_VERSION_MASK

/-- Generate the 32-bit CAT ID from a 16-bit id and version (the u16 casts
of the source are the explicit mods). -/
def gen_noc_cat (id version : Nat) : Nat :=
  ((id % 2 ^ 16) <<< 16) ||| (version % 2 ^ 16)

/-- Rust Iterator::position on a list: index of the first element
satisfying the predicate. -/
def position (p : α → Bool) : List α → Option Nat
  | [] => none
  | x :: rest => if p x then some 0 else (position p rest).map (· + 1)

/-- The subjects that identify the accessor: a fixed array of
MAX_ACCESSOR_SUBJECTS u64 slots, 0 marking an empty slot. -/
structure AccessorSubjects where
  subjects : List Nat
deriving DecidableEq

/-- AccessorSubjects::new: slot 0 is the id, the rest default to 0. -/
def AccessorSubjects.new (id : Nat) : AccessorSubjects :=
  ⟨id :: List.replicate MAX_CAT_IDS_PER_NOC 0⟩

/-- AccessorSubjects::add_catid: store the CAT (marked with the CAT high
bits) in the first empty slot, NoSpace when full. -/
def AccessorSubjects.add_catid (a : AccessorSubjects) (subject : Nat) :
    Except Error AccessorSubjects :=
  match position (· == 0) a.subjects with
  | some i => .ok ⟨a.subjects.set i (NOC_CAT_SUBJECT_MARK ||| (subject % 2 ^ 32))⟩
  | none => .error .NoSpace

/-- AccessorSubjects::matches: some occupied slot equals the candidate
exactly, or CAT-aware matching succeeds (same group id, accessor version at
least the candidate version). -/
def AccessorSubjects.matches (a : AccessorSubjects) (acl_subject : Nat) : Bool :=
  a.subjects.any (fun v =>
    v != 0 &&
      (v == acl_subject ||
        (is_noc_cat v && is_noc_cat acl_subject &&
          (get_noc_cat_id v == get_noc_cat_id acl_subject) &&
          decide (get_noc_cat_version acl_subject ≤ get_noc_cat_version v))))

/-- Modelled from the spec: Privilege lives in data_model::objects, which
is not part of the sources here; the spec lists the ordered capability
levels view/operate/manage/admin.  The matching code treats it as an opaque
token handed to the external privilege-comparison collaborator. -/
inductive Privilege where
  | View
  | Operate
  | Manage
  | Admin
deriving DecidableEq

/-- Modelled from the spec: Access lives in data_model::objects, which is
not part of the sources here; the ACL code treats it as an opaque value
(an access mask / operation) consulted only through the external
privilege-comparison collaborator is_ok. -/
structure Access where
  mask : Nat
deriving DecidableEq

/-- The type of the external privilege-comparison collaborator
Access::is_ok(operation, privilege), taken as a parameter everywhere the
source calls it. -/
abbrev IsOkFn := Access → Access → Privilege → Bool

/-- Modelled from the spec: GenericPath lives in
interaction_model::messages; the matching code reads only its optional
endpoint and cluster fields. -/
structure GenericPath where
  endpoint : Option Nat
  cluster : Option Nat
deriving DecidableEq

/-- The accessor object: fabric index, subject set and session auth mode.
(The acl_mgr back-reference of the source is modelled by passing the
entries array to the functions that consult it.) -/
structure Accessor where
  fab_idx : Nat
  subjects : AccessorSubjects
  auth_mode : AuthMode

/-- The object being acted upon: path, the target's declared permissions
(absent until set_target_perms), and the requested operation. -/
structure AccessDesc where
  path : GenericPath
  target_perms : Option Access
  operation : Access

/-- Access request object. -/
structure AccessReq where
  accessor : Accessor
  object : AccessDesc

/-- AccessReq::new: target_perms starts absent. -/
def AccessReq.new (accessor : Accessor) (path : GenericPath) (operation : Access) :
    AccessReq :=
  ⟨accessor, ⟨path, none, operation⟩⟩

/-- AccessReq::set_target_perms. -/
def AccessReq.set_target_perms (r : AccessReq) (perms : Access) : AccessReq :=
  { r with object := { r.object with target_perms := some perms } }

/-- An ACL target: optional cluster, endpoint and device type. -/
structure Target where
  cluster : Option Nat
  endpoint : Option Nat
  device_type : Option Nat
deriving DecidableEq

/-- Target::new (note the argument order of the source constructor). -/
def Target.new (endpoint cluster device_type : Option Nat) : Target :=
  ⟨cluster, endpoint, device_type⟩

/-- One ACL entry: privilege, required auth mode, optional subject slots,
optional target slots, owning fabric index. -/
structure AclEntry where
  privilege : Privilege
  auth_mode : AuthMode
  subjects : List (Option Nat)
  targets : List (Option Target)
  fab_idx : Option Nat
deriving DecidableEq

/-- AclEntry::new: empty subject and target slots, fabric index set. -/
def AclEntry.new (fab_idx : Nat) (privilege : Privilege) (auth_mode : AuthMode) :
    AclEntry :=
  ⟨privilege, auth_mode, List.replicate SUBJECTS_PER_ENTRY none,
    List.replicate TARGETS_PER_ENTRY none, some fab_idx⟩

/-- AclEntry::add_subject: first empty subject slot, NoSpace when full. -/
def AclEntry.add_subject (e : AclEntry) (subject : Nat) : Except Error AclEntry :=
  match position (·.isNone) e.subjects with
  | some index => .ok { e with subjects := e.subjects.set index (some subject) }
  | none => .error .NoSpace

/-- AclEntry::add_subject_catid (the u32 cast is the explicit mod). -/
def AclEntry.add_subject_catid (e : AclEntry) (cat_id : Nat) : Except Error AclEntry :=
  e.add_subject (NOC_CAT_SUBJECT_MARK ||| (cat_id % 2 ^ 32))

/-- AclEntry::add_target: first empty target slot, NoSpace when full. -/
def AclEntry.add_target (e : AclEntry) (target : Target) : Except Error AclEntry :=
  match position (·.isNone) e.targets with
  | some index => .ok { e with targets := e.targets.set index (some target) }
  | none => .error .NoSpace

/-- AclEntry::match_accessor: auth mode must agree; an empty subjects array
matches every subject, a non-empty one must contain a matching subject; and
the entry's fabric index must equal the accessor's. -/
def AclEntry.match_accessor (e : AclEntry) (accessor : Accessor) : Bool :=
  if e.auth_mode != accessor.auth_mode then false
  else
    let occupied := e.subjects.filterMap id
    let allow :=
      if occupied.isEmpty then true
      else occupied.any (fun s => accessor.subjects.matches s)
    allow && (e.fab_idx == some accessor.fab_idx)

/-- The target-membership loop of AclEntry::match_access_desc: an empty
targets array matches every target; an occupied slot matches when its
endpoint is absent or equal to the path's and its cluster is absent or
equal to the path's. -/
def AclEntry.target_membership (e : AclEntry) (object : AccessDesc) : Bool :=
  let occupied := e.targets.filterMap id
  if occupied.isEmpty then true
  else
    occupied.any (fun t =>
      (t.endpoint.isNone || t.endpoint == object.path.endpoint) &&
        (t.cluster.isNone || t.cluster == object.path.cluster))

/-- AclEntry::match_access_desc: target membership, then the declared
target permissions (deny when absent), then the external privilege
comparison. -/
def AclEntry.match_access_desc (is_ok : IsOkFn) (e : AclEntry) (object : AccessDesc) :
    Bool :=
  if e.target_membership object then
    match object.target_perms with
    | some access => is_ok access object.operation e.privilege
    | none => false
  else false

/-- AclEntry::allow. -/
def AclEntry.allow (is_ok : IsOkFn) (e : AclEntry) (req : AccessReq) : Bool :=
  e.match_accessor req.accessor && e.match_access_desc is_ok req.object

/-- Total number of slots in the store. -/
def MAX_ACL_ENTRIES : Nat := ENTRIES_PER_FABRIC * MAX_SUPPORTED_FABRICS

/-- The entries array of AclMgrInner. -/
abbrev AclEntries := List (Option AclEntry)

/-- Does this slot hold an entry of the given fabric
(entry.filter(fab_idx matches).is_some() in the source). -/
def isFabSlot (fab_idx : Nat) : Option AclEntry → Bool
  | some e => e.fab_idx == some fab_idx
  | none => false

/-- AclMgrInner::for_index_in_fabric: walk the slots in store order,
counting only slots whose entry belongs to the fabric, and return the
absolute index of the slot whose fabric-relative count equals the requested
index; NotFound when the fabric's entries are exhausted first. -/
def for_index_in_fabric : AclEntries → Nat → Nat → Except Error Nat
  | [], _, _ => .error .NotFound
  | slot :: rest, index, fab_idx =>
    if isFabSlot fab_idx slot then
      if index = 0 then .ok 0
      else
        match for_index_in_fabric rest (index - 1) fab_idx with
        | .ok j => .ok (j + 1)
        | .error err => .error err
    else
      match for_index_in_fabric rest index fab_idx with
      | .ok j => .ok (j + 1)
      | .error err => .error err

/-- The number of occupied entries whose fabric index equals the given one
(the count computed by AclMgr::add). -/
def fabric_count (entries : AclEntries) (fab_idx : Option Nat) : Nat :=
  ((entries.filterMap id).filter (fun a => a.fab_idx == fab_idx)).length

/-- AclMgr::erase_all (in-memory effect). -/
def AclMgr.erase_all (entries : AclEntries) : AclEntries :=
  entries.map (fun _ => none)

/-- AclMgr::add: NoSpace when the owning fabric is at ENTRIES_PER_FABRIC or
no slot is free; otherwise the entry is placed in the first free slot. -/
def AclMgr.add (entries : AclEntries) (entry : AclEntry) : Except Error AclEntries :=
  if ENTRIES_PER_FABRIC ≤ fabric_count entries entry.fab_idx then .error .NoSpace
  else
    match position (·.isNone) entries with
    | some index => .ok (entries.set index (some entry))
    | none => .error .NoSpace

/-- AclMgr::edit: resolve the fabric-relative index, overwrite in place.
The pair is (entries array after the call, returned result): on error the
array is the input one, since for_index_in_fabric only reads it. -/
def AclMgr.edit (entries : AclEntries) (index fab_idx : Nat) (new : AclEntry) :
    AclEntries × Except Error Unit :=
  match for_index_in_fabric entries index fab_idx with
  | .ok j => (entries.set j (some new), .ok ())
  | .error err => (entries, .error err)

/-- AclMgr::delete: resolve the fabric-relative index, clear the slot. -/
def AclMgr.delete (entries : AclEntries) (index fab_idx : Nat) :
    AclEntries × Except Error Unit :=
  match for_index_in_fabric entries index fab_idx with
  | .ok j => (entries.set j none, .ok ())
  | .error err => (entries, .error err)

/-- AclMgr::delete_for_fabric: clear every slot whose entry belongs to the
fabric. -/
def AclMgr.delete_for_fabric (entries : AclEntries) (fab_idx : Nat) : AclEntries :=
  entries.map (fun slot => if isFabSlot fab_idx slot then none else slot)

/-- AclMgr::allow: implicit grant for PASE sessions, otherwise the
disjunction of AclEntry::allow over the occupied entries. -/
def AclMgr.allow (is_ok : IsOkFn) (entries : AclEntries) (req : AccessReq) : Bool :=
  if req.accessor.auth_mode == AuthMode.Pase then true
  else (entries.filterMap id).any (fun e => e.allow is_ok req)

/-- Follows the spec's words (fabric-relative indexing): the list of
absolute slot indices, in store order, of the slots holding an entry of the
given fabric; the fabric-relative index i names the i-th element of this
list.  Used to compare for_index_in_fabric against the spec. -/
def fabricRelativeSlots (fab_idx : Nat) : AclEntries → List Nat
  | [] => []
  | slot :: rest =>
    if isFabSlot fab_idx slot then
      0 :: (fabricRelativeSlots fab_idx rest).map (· + 1)
    else (fabricRelativeSlots fab_idx rest).map (· + 1)

/-- Drop the device_type field of a target (for stating that the field
never influences matching). -/
def strip_device_type (t : Target) : Target :=
  { t with device_type := none }

/-! ## Helper lemmas -/

theorem position_eq_none_iff (p : α → Bool) (l : List α) :
    position p l = none ↔ ∀ x ∈ l, p x = false := by
  induction l with
  | nil => simp [position]
  | cons a rest ih =>
    simp only [position]
    by_cases h : p a
    · simp [h]
    · simp [h, Option.map_eq_none', ih]

theorem position_eq_some_iff (p : α → Bool) (l : List α) (j : Nat) :
    position p l = some j ↔
      ∃ x, l[j]? = some x ∧ p x = true ∧
        ∀ k, k < j → ∀ y, l[k]? = some y → p y = false := by
  induction l generalizing j with
  | nil => simp [position]
  | cons a rest ih =>
    cases hpa : p a with
    | true =>
      rw [show position p (a :: rest) = some 0 from by simp [position, hpa]]
      cases j with
      | zero => simp [hpa]
      | succ j =>
        constructor
        · intro hcontra
          exact absurd hcontra (by simp)
        · rintro ⟨x, hx, hpx, hall⟩
          have h0 := hall 0 (Nat.succ_pos _) a (by simp)
          rw [hpa] at h0
          exact absurd h0 (by simp)
    | false =>
      rw [show position p (a :: rest) = Option.map (· + 1) (position p rest) from by
        simp [position, hpa]]
      cases j with
      | zero =>
        constructor
        · intro hmap
          obtain ⟨i, _, hik⟩ := Option.map_eq_some'.mp hmap
          have hik2 : i + 1 = 0 := hik
          exact absurd hik2 (by omega)
        · rintro ⟨x, hx, hpx, _⟩
          simp only [List.getElem?_cons_zero, Option.some.injEq] at hx
          rw [← hx] at hpx
          rw [hpa] at hpx
          exact absurd hpx (by simp)
      | succ j =>
        constructor
        · intro hmap
          obtain ⟨i, hi, hik⟩ := Option.map_eq_some'.mp hmap
          have hik2 : i + 1 = j + 1 := hik
          have hij : i = j := by omega
          rw [hij] at hi
          obtain ⟨x, hx, hpx, hall⟩ := (ih j).mp hi
          refine ⟨x, by simpa using hx, hpx, ?_⟩
          intro k hk y hy
          cases k with
          | zero =>
            simp only [List.getElem?_cons_zero, Option.some.injEq] at hy
            rw [← hy]
            exact hpa
          | succ k =>
            exact hall k (by omega) y (by simpa using hy)
        · rintro ⟨x, hx, hpx, hall⟩
          have hrest : position p rest = some j :=
            (ih j).mpr ⟨x, by simpa using hx, hpx, fun k hk y hy =>
              hall (k + 1) (by omega) y (by simpa using hy)⟩
          rw [hrest]
          rfl

theorem filterMap_id_eq_nil {l : AclEntries} (h : ∀ slot ∈ l, slot = none) :
    l.filterMap id = [] := by
  induction l with
  | nil => rfl
  | cons a rest ih =>
    have ha : a = none := h a (by simp)
    subst ha
    simpa using ih (fun s hs => h s (by simp [hs]))

/-! ## Claim theorems -/

/-- C9: an AccessorSubjects built with primary identity 0 and no CATs has
only empty (0) slots, so matches is false for every candidate, including
candidate 0. -/
theorem C9_zero_primary_matches_nothing (candidate : Nat) :
    (AccessorSubjects.new 0).matches candidate = false := by
  simp [AccessorSubjects.new, AccessorSubjects.matches, MAX_CAT_IDS_PER_NOC,
    List.replicate]

/-- C7: when the request carries no declared target access policy
(target_perms is none), match_access_desc denies even when target
membership holds, for every privilege-comparison collaborator. -/
theorem C7_absent_policy_denies (is_ok : IsOkFn) (e : AclEntry) (object : AccessDesc)
    (hmem : e.target_membership object = true) (hperms : object.target_perms = none) :
    AclEntry.match_access_desc is_ok e object = false := by
  simp [AclEntry.match_access_desc, hmem, hperms]

/-- C7 witness: a concrete wildcard-target entry and a request without
target permissions. -/
theorem C7_witness :
    AclEntry.match_access_desc (fun _ _ _ => true)
      (AclEntry.new 2 Privilege.View AuthMode.Case)
      ⟨⟨some 1, some 1234⟩, none, ⟨0⟩⟩ = false :=
  C7_absent_policy_denies _ _ _ (by decide) rfl

/-- C1 counterexample: with every slot of the store empty, a PASE accessor
is allowed (the PASE short-circuit in AclMgr::allow), even with a
collaborator that permits nothing — so an empty store does not imply a
false result for requests of every auth mode. -/
theorem C1_counterexample :
    AclMgr.allow (fun _ _ _ => false) (List.replicate MAX_ACL_ENTRIES none)
      (AccessReq.new ⟨5, AccessorSubjects.new 112233, AuthMode.Pase⟩
        ⟨some 1, some 1234⟩ ⟨0⟩) = true := by
  decide

/-- C1 (amended): with every slot of the store empty, allow is false for
every request whose accessor's auth mode is not PASE, regardless of the
accessor's fabric index, subjects, requested operation, path, or target
permissions. -/
theorem C1_default_deny (is_ok : IsOkFn) (entries : AclEntries) (req : AccessReq)
    (hempty : ∀ slot ∈ entries, slot = none)
    (hmode : req.accessor.auth_mode ≠ AuthMode.Pase) :
    AclMgr.allow is_ok entries req = false := by
  unfold AclMgr.allow
  rw [if_neg (by simp [hmode]), filterMap_id_eq_nil hempty]
  simp

/-- C1 witness: a CASE accessor against a two-slot empty store. -/
theorem C1_default_deny_witness :
    AclMgr.allow (fun _ _ _ => true) [none, none]
      (AccessReq.new ⟨2, AccessorSubjects.new 112233, AuthMode.Case⟩
        ⟨some 1, some 1234⟩ ⟨0⟩) = false :=
  C1_default_deny _ _ _ (by decide) (by decide)

/-- C3 counterexample: an entry whose own fabric index is Some 0 (as built
by AclEntry::new(0, ..)) does match an accessor with fabric index 0 — the
code has no special handling for the not-yet-commissioned sentinel. -/
theorem C3_counterexample :
    AclEntry.match_accessor (AclEntry.new 0 Privilege.View AuthMode.Case)
      ⟨0, AccessorSubjects.new 112233, AuthMode.Case⟩ = true := by
  decide

/-- C3 (amended): an accessor with fabric index 0 never matches an entry
whose own fabric index differs from Some 0, whatever the entry's subjects
and auth mode are. -/
theorem C3_uncommissioned_accessor (e : AclEntry) (accessor : Accessor)
    (hacc : accessor.fab_idx = 0) (hent : e.fab_idx ≠ some 0) :
    e.match_accessor accessor = false := by
  unfold AclEntry.match_accessor
  have hfab : (e.fab_idx == some accessor.fab_idx) = false := by
    rw [hacc]
    exact beq_eq_false_iff_ne.mpr hent
  by_cases h : e.auth_mode != accessor.auth_mode
  · simp [h]
  · simp [h, hfab]

/-- C3 witness: an entry of fabric 1 against a fabric-0 accessor. -/
theorem C3_witness :
    AclEntry.match_accessor (AclEntry.new 1 Privilege.View AuthMode.Case)
      ⟨0, AccessorSubjects.new 1, AuthMode.Case⟩ = false :=
  C3_uncommissioned_accessor _ _ rfl (by decide)

/-- C10: when edit or delete returns an error, the entries array after the
call is exactly the input one — for_index_in_fabric only reads the store,
so a failed resolution mutates nothing. -/
theorem C10_failed_mutation_leaves_store (entries : AclEntries) (index fab_idx : Nat)
    (new : AclEntry) (err : Error) :
    ((AclMgr.edit entries index fab_idx new).2 = .error err →
      (AclMgr.edit entries index fab_idx new).1 = entries) ∧
    ((AclMgr.delete entries index fab_idx).2 = .error err →
      (AclMgr.delete entries index fab_idx).1 = entries) := by
  unfold AclMgr.edit AclMgr.delete
  cases h : for_index_in_fabric entries index fab_idx <;> simp

/-- Refinement of for_index_in_fabric against the spec's fabric-relative
indexing: the resolved absolute slot is the index-th element of the list of
fabric-owned slot positions, and NotFound is returned exactly when that
list is too short. -/
theorem for_index_in_fabric_spec (entries : AclEntries) (fab_idx : Nat) (index : Nat) :
    for_index_in_fabric entries index fab_idx =
      match (fabricRelativeSlots fab_idx entries)[index]? with
      | some j => Except.ok j
      | none => Except.error Error.NotFound := by
  induction entries generalizing index with
  | nil => simp [for_index_in_fabric, fabricRelativeSlots]
  | cons slot rest ih =>
    cases hfs : isFabSlot fab_idx slot with
    | true =>
      cases index with
      | zero => simp [for_index_in_fabric, fabricRelativeSlots, hfs]
      | succ index =>
        have hstep : for_index_in_fabric (slot :: rest) (index + 1) fab_idx =
            match for_index_in_fabric rest index fab_idx with
            | .ok j => .ok (j + 1)
            | .error err => .error err := by
          simp [for_index_in_fabric, hfs]
        rw [hstep, ih index]
        have hmap : (fabricRelativeSlots fab_idx (slot :: rest))[index + 1]? =
            ((fabricRelativeSlots fab_idx rest)[index]?).map (· + 1) := by
          simp [fabricRelativeSlots, hfs]
        rw [hmap]
        cases (fabricRelativeSlots fab_idx rest)[index]? <;> simp
    | false =>
      have hstep : for_index_in_fabric (slot :: rest) index fab_idx =
          match for_index_in_fabric rest index fab_idx with
          | .ok j => .ok (j + 1)
          | .error err => .error err := by
        simp [for_index_in_fabric, hfs]
      rw [hstep, ih index]
      have hmap : (fabricRelativeSlots fab_idx (slot :: rest))[index]? =
          ((fabricRelativeSlots fab_idx rest)[index]?).map (· + 1) := by
        simp [fabricRelativeSlots, hfs]
      rw [hmap]
      cases (fabricRelativeSlots fab_idx rest)[index]? <;> simp

/-- C4: edit and delete resolve the fabric-relative index by scanning the
slots in store order counting only entries of the given fabric: when the
index-th such slot exists at absolute position j, exactly slot j is
overwritten (respectively cleared); when fewer entries of the fabric
exist, both return NotFound. -/
theorem C4_fabric_relative_indexing (entries : AclEntries) (index fab_idx : Nat)
    (new : AclEntry) :
    (AclMgr.edit entries index fab_idx new =
      match (fabricRelativeSlots fab_idx entries)[index]? with
      | some j => (entries.set j (some new), Except.ok ())
      | none => (entries, Except.error Error.NotFound)) ∧
    (AclMgr.delete entries index fab_idx =
      match (fabricRelativeSlots fab_idx entries)[index]? with
      | some j => (entries.set j none, Except.ok ())
      | none => (entries, Except.error Error.NotFound)) ∧
    ((fabricRelativeSlots fab_idx entries).length ≤ index →
      AclMgr.edit entries index fab_idx new = (entries, Except.error Error.NotFound) ∧
      AclMgr.delete entries index fab_idx = (entries, Except.error Error.NotFound)) := by
  have hspec := for_index_in_fabric_spec entries fab_idx index
  refine ⟨?_, ?_, ?_⟩
  · unfold AclMgr.edit
    rw [hspec]
    cases (fabricRelativeSlots fab_idx entries)[index]? <;> simp
  · unfold AclMgr.delete
    rw [hspec]
    cases (fabricRelativeSlots fab_idx entries)[index]? <;> simp
  · intro hlen
    have hnone : (fabricRelativeSlots fab_idx entries)[index]? = none :=
      List.getElem?_eq_none hlen
    unfold AclMgr.edit AclMgr.delete
    rw [hspec, hnone]
    simp [hspec, hnone]

/-- C4 witness: a store with fabrics 1, 2, 1 in its slots has only two
fabric-1 entries, so fabric-relative index 5 for fabric 1 is NotFound and
the store is returned unchanged. -/
theorem C4_witness :
    AclMgr.edit
        [some (AclEntry.new 1 Privilege.View AuthMode.Case),
         some (AclEntry.new 2 Privilege.View AuthMode.Case),
         some (AclEntry.new 1 Privilege.Admin AuthMode.Case)] 5 1
        (AclEntry.new 1 Privilege.Manage AuthMode.Case) =
      ([some (AclEntry.new 1 Privilege.View AuthMode.Case),
        some (AclEntry.new 2 Privilege.View AuthMode.Case),
        some (AclEntry.new 1 Privilege.Admin AuthMode.Case)],
        Except.error Error.NotFound) :=
  ((C4_fabric_relative_indexing _ 5 1 _).2.2 (by decide)).1

/-- C5: add fails with NoSpace exactly when the owning fabric already holds
ENTRIES_PER_FABRIC entries or no slot is free; otherwise it writes the
entry into the first free slot, leaving every other slot unchanged. -/
theorem C5_add_first_free_slot (entries : AclEntries) (entry : AclEntry) :
    (AclMgr.add entries entry = .error .NoSpace ↔
      ENTRIES_PER_FABRIC ≤ fabric_count entries entry.fab_idx ∨
        ∀ slot ∈ entries, slot ≠ none) ∧
    (∀ j, entries[j]? = some none → (∀ k, k < j → entries[k]? ≠ some none) →
      fabric_count entries entry.fab_idx < ENTRIES_PER_FABRIC →
      AclMgr.add entries entry = .ok (entries.set j (some entry))) := by
  constructor
  · unfold AclMgr.add
    by_cases hcnt : ENTRIES_PER_FABRIC ≤ fabric_count entries entry.fab_idx
    · simp [hcnt]
    · rw [if_neg hcnt]
      cases hpos : position (·.isNone) entries with
      | some j =>
        constructor
        · intro h
          exact absurd h (by simp)
        · intro h
          rcases h with h | h
          · exact absurd h hcnt
          · exfalso
            obtain ⟨x, hx, hpx, _⟩ := (position_eq_some_iff _ _ _).mp hpos
            have hxnone : x = none := by
              cases x with
              | none => rfl
              | some e => exact absurd hpx (by simp)
            have hmem : x ∈ entries := List.getElem?_mem hx
            exact h x hmem hxnone
      | none =>
        constructor
        · intro _
          right
          intro slot hmem hnone
          have hall := (position_eq_none_iff _ _).mp hpos slot hmem
          rw [hnone] at hall
          exact absurd hall (by simp)
        · intro _
          rfl
  · intro j hj hfirst hcnt
    unfold AclMgr.add
    rw [if_neg (by omega)]
    have hpos : position (·.isNone) entries = some j := by
      refine (position_eq_some_iff _ _ _).mpr ⟨none, hj, rfl, ?_⟩
      intro k hk y hy
      cases y with
      | none => exact absurd hy (hfirst k hk)
      | some e => rfl
    rw [hpos]

/-- C5 witness: one occupied fabric-1 slot, two free slots; adding a second
fabric-1 entry goes into the first free slot (absolute index 1). -/
theorem C5_witness :
    AclMgr.add
        [some (AclEntry.new 1 Privilege.View AuthMode.Case), none, none]
        (AclEntry.new 1 Privilege.Admin AuthMode.Case) =
      .ok [some (AclEntry.new 1 Privilege.View AuthMode.Case),
           some (AclEntry.new 1 Privilege.Admin AuthMode.Case), none] :=
  (C5_add_first_free_slot
      [some (AclEntry.new 1 Privilege.View AuthMode.Case), none, none]
      (AclEntry.new 1 Privilege.Admin AuthMode.Case)).2 1 rfl
    (by
      intro k hk
      have hk0 : k = 0 := by omega
      subst hk0
      simp)
    (by decide)

/-- C6: delete_for_fabric clears exactly the slots holding an entry of the
given fabric: the store keeps its length, every fabric-owned slot becomes
empty, every other slot is unchanged, and an entry of another fabric that
authorized a request still authorizes it afterwards. -/
theorem C6_delete_for_fabric_exact (entries : AclEntries) (fab_idx : Nat) :
    (AclMgr.delete_for_fabric entries fab_idx).length = entries.length ∧
    (∀ (j : Nat) (e : AclEntry), entries[j]? = some (some e) → e.fab_idx = some fab_idx →
      (AclMgr.delete_for_fabric entries fab_idx)[j]? = some none) ∧
    (∀ (j : Nat) (slot : Option AclEntry), entries[j]? = some slot → isFabSlot fab_idx slot = false →
      (AclMgr.delete_for_fabric entries fab_idx)[j]? = some slot) ∧
    (∀ (is_ok : IsOkFn) (req : AccessReq) (e : AclEntry),
      some e ∈ entries → e.fab_idx ≠ some fab_idx → AclEntry.allow is_ok e req = true →
      AclMgr.allow is_ok (AclMgr.delete_for_fabric entries fab_idx) req = true) := by
  refine ⟨by simp [AclMgr.delete_for_fabric], ?_, ?_, ?_⟩
  · intro j e hj hfab
    unfold AclMgr.delete_for_fabric
    rw [List.getElem?_map, hj]
    simp [isFabSlot, hfab]
  · intro j slot hj hfs
    unfold AclMgr.delete_for_fabric
    rw [List.getElem?_map, hj]
    simp [hfs]
  · intro is_ok req e hmem hne hallow
    unfold AclMgr.allow
    by_cases hp : req.accessor.auth_mode = AuthMode.Pase
    · rw [if_pos (by simp [hp])]
    · rw [if_neg (by simp [hp])]
      rw [List.any_eq_true]
      refine ⟨e, ?_, hallow⟩
      rw [List.mem_filterMap]
      refine ⟨some e, ?_, rfl⟩
      unfold AclMgr.delete_for_fabric
      rw [List.mem_map]
      refine ⟨some e, hmem, ?_⟩
      have : isFabSlot fab_idx (some e) = false := by
        simp [isFabSlot]
        exact hne
      rw [this]
      simp

/-- C6 witness: deleting fabric 2 from a store holding a fabric-2 and a
fabric-3 wildcard entry empties the fabric-2 slot and the fabric-3 entry
still authorizes its request. -/
theorem C6_witness :
    (AclMgr.delete_for_fabric
        [some (AclEntry.new 2 Privilege.View AuthMode.Case),
         some (AclEntry.new 3 Privilege.View AuthMode.Case)] 2)[0]? = some none ∧
    AclMgr.allow (fun _ _ _ => true)
      (AclMgr.delete_for_fabric
        [some (AclEntry.new 2 Privilege.View AuthMode.Case),
         some (AclEntry.new 3 Privilege.View AuthMode.Case)] 2)
      ⟨⟨3, AccessorSubjects.new 112233, AuthMode.Case⟩,
        ⟨⟨some 1, some 1234⟩, some ⟨1⟩, ⟨2⟩⟩⟩ = true :=
  ⟨(C6_delete_for_fabric_exact _ 2).2.1 0 (AclEntry.new 2 Privilege.View AuthMode.Case)
      rfl rfl,
   (C6_delete_for_fabric_exact _ 2).2.2.2 (fun _ _ _ => true)
      ⟨⟨3, AccessorSubjects.new 112233, AuthMode.Case⟩,
        ⟨⟨some 1, some 1234⟩, some ⟨1⟩, ⟨2⟩⟩⟩
      (AclEntry.new 3 Privilege.View AuthMode.Case)
      (by simp) (by decide) (by decide)⟩

/-- C10 witness: resolving index 0 of fabric 1 in a store holding no entry
of that fabric fails and leaves the store as it was. -/
theorem C10_witness :
    (AclMgr.edit [none] 0 1 (AclEntry.new 1 Privilege.View AuthMode.Case)).1 = [none] ∧
    (AclMgr.delete [none] 0 1).1 = [none] :=
  ⟨(C10_failed_mutation_leaves_store [none] 0 1
      (AclEntry.new 1 Privilege.View AuthMode.Case) Error.NotFound).1 rfl,
   (C10_failed_mutation_leaves_store [none] 0 1
      (AclEntry.new 1 Privilege.View AuthMode.Case) Error.NotFound).2 rfl⟩

theorem filterMap_id_map_optionMap (g : Target → Target) (l : List (Option Target)) :
    (l.map (Option.map g)).filterMap id = (l.filterMap id).map g := by
  induction l with
  | nil => rfl
  | cons a rest ih => cases a <;> simp [ih]

theorem target_membership_only_targets (e1 e2 : AclEntry) (object : AccessDesc)
    (h : e1.targets = e2.targets) :
    e1.target_membership object = e2.target_membership object := by
  unfold AclEntry.target_membership
  rw [h]

theorem target_membership_strip (e : AclEntry) (object : AccessDesc) :
    AclEntry.target_membership
        { e with targets := e.targets.map (Option.map strip_device_type) } object =
      e.target_membership object := by
  unfold AclEntry.target_membership
  simp only [filterMap_id_map_optionMap]
  rw [List.any_map]
  simp [strip_device_type, Function.comp]

/-- C8: two entries that agree on everything except the device_type fields
of their target slots produce the same match_access_desc and allow results
for every request and every privilege-comparison collaborator — the
device_type field never influences the authorization decision. -/
theorem C8_device_type_never_consulted (is_ok : IsOkFn) (e1 e2 : AclEntry)
    (req : AccessReq)
    (hpriv : e1.privilege = e2.privilege) (hauth : e1.auth_mode = e2.auth_mode)
    (hsubj : e1.subjects = e2.subjects) (hfab : e1.fab_idx = e2.fab_idx)
    (htarg : e1.targets.map (Option.map strip_device_type) =
      e2.targets.map (Option.map strip_device_type)) :
    AclEntry.match_access_desc is_ok e1 req.object =
        AclEntry.match_access_desc is_ok e2 req.object ∧
      AclEntry.allow is_ok e1 req = AclEntry.allow is_ok e2 req := by
  have hmem : e1.target_membership req.object = e2.target_membership req.object := by
    rw [← target_membership_strip e1, ← target_membership_strip e2]
    exact target_membership_only_targets _ _ _ (by simpa using htarg)
  have hdesc : AclEntry.match_access_desc is_ok e1 req.object =
      AclEntry.match_access_desc is_ok e2 req.object := by
    unfold AclEntry.match_access_desc
    rw [hmem, hpriv]
  have hacc : e1.match_accessor req.accessor = e2.match_accessor req.accessor := by
    unfold AclEntry.match_accessor
    rw [hauth, hsubj, hfab]
  exact ⟨hdesc, by unfold AclEntry.allow; rw [hacc, hdesc]⟩

/-- C8 witness: two entries differing only in a target's device_type (77
versus absent) decide a concrete request identically. -/
theorem C8_witness :
    AclEntry.match_access_desc (fun _ _ _ => true)
        ⟨Privilege.View, AuthMode.Case, List.replicate 4 none,
          [some ⟨some 1234, some 1, some 77⟩, none, none], some 2⟩
        ⟨⟨some 1, some 1234⟩, some ⟨1⟩, ⟨2⟩⟩ =
      AclEntry.match_access_desc (fun _ _ _ => true)
        ⟨Privilege.View, AuthMode.Case, List.replicate 4 none,
          [some ⟨some 1234, some 1, none⟩, none, none], some 2⟩
        ⟨⟨some 1, some 1234⟩, some ⟨1⟩, ⟨2⟩⟩ :=
  (C8_device_type_never_consulted (fun _ _ _ => true)
      ⟨Privilege.View, AuthMode.Case, List.replicate 4 none,
        [some ⟨some 1234, some 1, some 77⟩, none, none], some 2⟩
      ⟨Privilege.View, AuthMode.Case, List.replicate 4 none,
        [some ⟨some 1234, some 1, none⟩, none, none], some 2⟩
      ⟨⟨2, AccessorSubjects.new 112233, AuthMode.Case⟩,
        ⟨⟨some 1, some 1234⟩, some ⟨1⟩, ⟨2⟩⟩⟩
      rfl rfl rfl rfl rfl).1

theorem testBit_orShift {a b k : Nat} (hb : b < 2 ^ k) (i : Nat) :
    ((a <<< k) ||| b).testBit i = if i < k then b.testBit i else a.testBit (i - k) := by
  rcases Nat.lt_or_ge i k with h | h
  · rw [if_pos h]
    simp only [Nat.testBit_or, Nat.testBit_shiftLeft]
    simp [Nat.not_le.mpr h]
  · rw [if_neg (Nat.not_lt.mpr h)]
    have hbit : b.testBit i = false :=
      Nat.testBit_lt_two_pow (lt_of_lt_of_le hb (Nat.pow_le_pow_right (by norm_num) h))
    simp only [Nat.testBit_or, Nat.testBit_shiftLeft]
    simp [h, hbit]

theorem orShift_eq {a b k : Nat} (hb : b < 2 ^ k) : (a <<< k) ||| b = a * 2 ^ k + b := by
  have hmod : ((a <<< k) ||| b) % 2 ^ k = b := by
    rw [← Nat.and_pow_two_sub_one_eq_mod]
    apply Nat.eq_of_testBit_eq
    intro i
    rw [Nat.testBit_and, testBit_orShift hb]
    rcases Nat.lt_or_ge i k with h | h
    · simp [h, Nat.testBit_two_pow_sub_one]
    · have hbit : b.testBit i = false :=
        Nat.testBit_lt_two_pow (lt_of_lt_of_le hb (Nat.pow_le_pow_right (by norm_num) h))
      simp [Nat.not_lt.mpr h, hbit, Nat.testBit_two_pow_sub_one]
  have hdiv : ((a <<< k) ||| b) / 2 ^ k = a := by
    rw [← Nat.shiftRight_eq_div_pow]
    apply Nat.eq_of_testBit_eq
    intro i
    rw [Nat.testBit_shiftRight, testBit_orShift hb]
    have hnlt : ¬ (k + i < k) := by omega
    simp [hnlt]
  have hX := Nat.div_add_mod ((a <<< k) ||| b) (2 ^ k)
  rw [hdiv, hmod] at hX
  rw [← hX, Nat.mul_comm]

theorem mark_eq : NOC_CAT_SUBJECT_MARK = 0xFFFFFFFD <<< 32 := by
  norm_num [NOC_CAT_SUBJECT_MARK, Nat.shiftLeft_eq]

theorem id_mask_eq : NOC_CAT_ID_MASK = (2 ^ 16 - 1) <<< 16 := by
  norm_num [NOC_CAT_ID_MASK, Nat.shiftLeft_eq]

theorem version_mask_eq : NOC_CAT_VERSION_MASK = 2 ^ 16 - 1 := by
  norm_num [NOC_CAT_VERSION_MASK]

theorem gen_noc_cat_eq {G V : Nat} (hG : G < 2 ^ 16) (hV : V < 2 ^ 16) :
    gen_noc_cat G V = (G <<< 16) ||| V := by
  unfold gen_noc_cat
  rw [Nat.mod_eq_of_lt hG, Nat.mod_eq_of_lt hV]

theorem gen_noc_cat_lt {G V : Nat} (hG : G < 2 ^ 16) (hV : V < 2 ^ 16) :
    gen_noc_cat G V < 2 ^ 32 := by
  rw [gen_noc_cat_eq hG hV, orShift_eq hV]
  have h16 : (2 : Nat) ^ 16 = 65536 := by norm_num
  have h32 : (2 : Nat) ^ 32 = 4294967296 := by norm_num
  rw [h16, h32]
  rw [h16] at hG hV
  omega

theorem cat_subject_version {G V : Nat} (hG : G < 2 ^ 16) (hV : V < 2 ^ 16) :
    get_noc_cat_version (NOC_CAT_SUBJECT_MARK ||| gen_noc_cat G V) = V := by
  have hinner : (G <<< 16) ||| V < 2 ^ 32 := by
    rw [← gen_noc_cat_eq hG hV]
    exact gen_noc_cat_lt hG hV
  unfold get_noc_cat_version
  rw [version_mask_eq, Nat.and_pow_two_sub_one_eq_mod, mark_eq, gen_noc_cat_eq hG hV,
    orShift_eq hinner, orShift_eq hV]
  have h16 : (2 : Nat) ^ 16 = 65536 := by norm_num
  have h32 : (2 : Nat) ^ 32 = 4294967296 := by norm_num
  rw [h16, h32]
  rw [h16] at hG hV
  omega

theorem cat_subject_id {G V : Nat} (hG : G < 2 ^ 16) (hV : V < 2 ^ 16) :
    get_noc_cat_id (NOC_CAT_SUBJECT_MARK ||| gen_noc_cat G V) = G := by
  have hinner : (G <<< 16) ||| V < 2 ^ 32 := by
    rw [← gen_noc_cat_eq hG hV]
    exact gen_noc_cat_lt hG hV
  unfold get_noc_cat_id
  rw [mark_eq, gen_noc_cat_eq hG hV, id_mask_eq]
  have hmaskbit : ∀ i : Nat, ((2 ^ 16 - 1) <<< 16).testBit i =
      (decide (i ≥ 16) && decide (i - 16 < 16)) := by
    intro i
    rw [Nat.testBit_shiftLeft, Nat.testBit_two_pow_sub_one]
  have hGsh : ∀ i : Nat, (G <<< 16).testBit i = (decide (i ≥ 16) && G.testBit (i - 16)) :=
    fun i => Nat.testBit_shiftLeft G
  have hmask : ((0xFFFFFFFD <<< 32) ||| ((G <<< 16) ||| V)) &&& ((2 ^ 16 - 1) <<< 16) =
      G <<< 16 := by
    apply Nat.eq_of_testBit_eq
    intro i
    rw [Nat.testBit_and, testBit_orShift hinner, hmaskbit, hGsh]
    rcases Nat.lt_or_ge i 16 with h16 | h16
    · have h32 : i < 32 := by omega
      rw [if_pos h32, testBit_orShift hV, if_pos h16,
        decide_eq_false (Nat.not_le.mpr h16)]
      simp only [Bool.false_and, Bool.and_false]
    · rcases Nat.lt_or_ge i 32 with h32 | h32
      · rw [if_pos h32, testBit_orShift hV, if_neg (Nat.not_lt.mpr h16),
          decide_eq_true h16, decide_eq_true (show i - 16 < 16 by omega)]
        simp only [Bool.and_true, Bool.true_and]
      · rw [if_neg (Nat.not_lt.mpr h32), decide_eq_true h16,
          decide_eq_false (show ¬ (i - 16 < 16) by omega),
          Nat.testBit_lt_two_pow
            (lt_of_lt_of_le hG (Nat.pow_le_pow_right (by norm_num) (show 16 ≤ i - 16 by omega)))]
        simp only [Bool.and_false, Bool.true_and]
  rw [hmask, Nat.shiftLeft_eq, Nat.shiftRight_eq_div_pow]
  exact Nat.mul_div_cancel _ (by norm_num)

theorem cat_subject_is_cat {G V : Nat} (hG : G < 2 ^ 16) (hV : V < 2 ^ 16) :
    is_noc_cat (NOC_CAT_SUBJECT_MARK ||| gen_noc_cat G V) = true := by
  have hinner : (G <<< 16) ||| V < 2 ^ 32 := by
    rw [← gen_noc_cat_eq hG hV]
    exact gen_noc_cat_lt hG hV
  unfold is_noc_cat
  rw [beq_iff_eq]
  conv_lhs => rw [mark_eq, gen_noc_cat_eq hG hV]
  conv_rhs => rw [mark_eq]
  have hmarkbit : ∀ i : Nat, ((0xFFFFFFFD : Nat) <<< 32).testBit i =
      (decide (i ≥ 32) && Nat.testBit 0xFFFFFFFD (i - 32)) :=
    fun i => Nat.testBit_shiftLeft 0xFFFFFFFD
  apply Nat.eq_of_testBit_eq
  intro i
  rw [Nat.testBit_and, testBit_orShift hinner, hmarkbit]
  rcases Nat.lt_or_ge i 32 with h32 | h32
  · rw [if_pos h32, decide_eq_false (Nat.not_le.mpr h32)]
    simp only [Bool.false_and, Bool.and_false]
  · rw [if_neg (Nat.not_lt.mpr h32), decide_eq_true h32]
    simp only [Bool.true_and, Bool.and_self]

theorem cat_subject_ne_zero {G V : Nat} (hG : G < 2 ^ 16) (hV : V < 2 ^ 16) :
    (NOC_CAT_SUBJECT_MARK ||| gen_noc_cat G V) ≠ 0 := by
  intro h
  have hcat := cat_subject_is_cat hG hV
  rw [h] at hcat
  exact absurd hcat (by decide)

theorem cat_slot_eval {G Va G2 V2 : Nat} (hG : G < 2 ^ 16) (hVa : Va < 2 ^ 16)
    (hG2 : G2 < 2 ^ 16) (hV2 : V2 < 2 ^ 16) :
    ((NOC_CAT_SUBJECT_MARK ||| gen_noc_cat G Va) != 0 &&
      ((NOC_CAT_SUBJECT_MARK ||| gen_noc_cat G Va) ==
          (NOC_CAT_SUBJECT_MARK ||| gen_noc_cat G2 V2) ||
        (is_noc_cat (NOC_CAT_SUBJECT_MARK ||| gen_noc_cat G Va) &&
          is_noc_cat (NOC_CAT_SUBJECT_MARK ||| gen_noc_cat G2 V2) &&
          (get_noc_cat_id (NOC_CAT_SUBJECT_MARK ||| gen_noc_cat G Va) ==
            get_noc_cat_id (NOC_CAT_SUBJECT_MARK ||| gen_noc_cat G2 V2)) &&
          decide (get_noc_cat_version (NOC_CAT_SUBJECT_MARK ||| gen_noc_cat G2 V2) ≤
            get_noc_cat_version (NOC_CAT_SUBJECT_MARK ||| gen_noc_cat G Va))))) =
      (decide (G = G2) && decide (V2 ≤ Va)) := by
  rw [cat_subject_is_cat hG hVa, cat_subject_is_cat hG2 hV2, cat_subject_id hG hVa,
    cat_subject_id hG2 hV2, cat_subject_version hG hVa, cat_subject_version hG2 hV2]
  rw [show ((NOC_CAT_SUBJECT_MARK ||| gen_noc_cat G Va) != 0) = true from
    bne_iff_ne.mpr (cat_subject_ne_zero hG hVa)]
  by_cases hGG : G = G2
  · subst hGG
    by_cases hvv : V2 ≤ Va
    · simp [hvv]
    · have hvc : ((NOC_CAT_SUBJECT_MARK ||| gen_noc_cat G Va) ==
          (NOC_CAT_SUBJECT_MARK ||| gen_noc_cat G V2)) = false := by
        refine beq_eq_false_iff_ne.mpr (fun heq => hvv ?_)
        have hver := congrArg get_noc_cat_version heq
        rw [cat_subject_version hG hVa, cat_subject_version hG hV2] at hver
        omega
      simp [hvc, hvv]
  · have hvc : ((NOC_CAT_SUBJECT_MARK ||| gen_noc_cat G Va) ==
        (NOC_CAT_SUBJECT_MARK ||| gen_noc_cat G2 V2)) = false := by
      refine beq_eq_false_iff_ne.mpr (fun heq => hGG ?_)
      have hid := congrArg get_noc_cat_id heq
      rw [cat_subject_id hG hVa, cat_subject_id hG2 hV2] at hid
      exact hid
    simp [hvc, hGG]

theorem non_cat_slot_false {v : Nat} (hv : is_noc_cat v = false) {G2 V2 : Nat}
    (hG2 : G2 < 2 ^ 16) (hV2 : V2 < 2 ^ 16) :
    (v != 0 &&
      (v == (NOC_CAT_SUBJECT_MARK ||| gen_noc_cat G2 V2) ||
        (is_noc_cat v && is_noc_cat (NOC_CAT_SUBJECT_MARK ||| gen_noc_cat G2 V2) &&
          (get_noc_cat_id v ==
            get_noc_cat_id (NOC_CAT_SUBJECT_MARK ||| gen_noc_cat G2 V2)) &&
          decide (get_noc_cat_version (NOC_CAT_SUBJECT_MARK ||| gen_noc_cat G2 V2) ≤
            get_noc_cat_version v)))) = false := by
  have hne : (v == (NOC_CAT_SUBJECT_MARK ||| gen_noc_cat G2 V2)) = false := by
    refine beq_eq_false_iff_ne.mpr (fun heq => ?_)
    rw [heq, cat_subject_is_cat hG2 hV2] at hv
    cases hv
  rw [hne, hv]
  simp

/-- C2: for an accessor built from a primary identity that is not CAT-shaped
plus the CAT credential (group G, version Va), matching an entry CAT subject
(group G, version Ve) succeeds exactly when Va is at least Ve, and matching
an entry CAT subject of any other group fails regardless of versions. -/
theorem C2_cat_version_monotonicity (primary G Va Ve : Nat)
    (hG : G < 2 ^ 16) (hVa : Va < 2 ^ 16) (hVe : Ve < 2 ^ 16)
    (hprimary : is_noc_cat primary = false)
    (s : AccessorSubjects)
    (hs : (AccessorSubjects.new primary).add_catid (gen_noc_cat G Va) = .ok s) :
    (s.matches (NOC_CAT_SUBJECT_MARK ||| gen_noc_cat G Ve) = decide (Ve ≤ Va)) ∧
    (∀ G2 V2, G2 < 2 ^ 16 → V2 < 2 ^ 16 → G2 ≠ G →
      s.matches (NOC_CAT_SUBJECT_MARK ||| gen_noc_cat G2 V2) = false) := by
  have hgen : gen_noc_cat G Va % 2 ^ 32 = gen_noc_cat G Va :=
    Nat.mod_eq_of_lt (gen_noc_cat_lt hG hVa)
  have hgen2 : gen_noc_cat G Va % 4294967296 = gen_noc_cat G Va := hgen
  by_cases hp0 : primary = 0
  · subst hp0
    have hcomp : (AccessorSubjects.new 0).add_catid (gen_noc_cat G Va) =
        .ok ⟨[NOC_CAT_SUBJECT_MARK ||| gen_noc_cat G Va, 0, 0, 0]⟩ := by
      simp [AccessorSubjects.new, AccessorSubjects.add_catid, MAX_CAT_IDS_PER_NOC,
        position, hgen, hgen2, List.replicate]
    rw [hcomp] at hs
    rw [Except.ok.injEq] at hs
    subst hs
    constructor
    · unfold AccessorSubjects.matches
      simp only [List.any_cons, List.any_nil, Bool.or_false]
      rw [cat_slot_eval hG hVa hG hVe]
      simp
    · intro G2 V2 hG2 hV2 hne
      unfold AccessorSubjects.matches
      simp only [List.any_cons, List.any_nil, Bool.or_false]
      rw [cat_slot_eval hG hVa hG2 hV2, decide_eq_false (Ne.symm hne)]
      simp
  · have hpb : (primary == 0) = false := beq_eq_false_iff_ne.mpr hp0
    have hcomp : (AccessorSubjects.new primary).add_catid (gen_noc_cat G Va) =
        .ok ⟨[primary, NOC_CAT_SUBJECT_MARK ||| gen_noc_cat G Va, 0, 0]⟩ := by
      simp [AccessorSubjects.new, AccessorSubjects.add_catid, MAX_CAT_IDS_PER_NOC,
        position, hgen, hgen2, hpb, List.replicate]
    rw [hcomp] at hs
    rw [Except.ok.injEq] at hs
    subst hs
    constructor
    · unfold AccessorSubjects.matches
      simp only [List.any_cons, List.any_nil, Bool.or_false]
      rw [cat_slot_eval hG hVa hG hVe, non_cat_slot_false hprimary hG hVe]
      simp
    · intro G2 V2 hG2 hV2 hne
      unfold AccessorSubjects.matches
      simp only [List.any_cons, List.any_nil, Bool.or_false]
      rw [cat_slot_eval hG hVa hG2 hV2, non_cat_slot_false hprimary hG2 hV2,
        decide_eq_false (Ne.symm hne)]
      simp

/-- C2 witness: accessor 112233 with CAT group 0xABCD version 3 matches the
entry CAT (0xABCD, 2) and does not match the entry CAT (0xCAFE, 2). -/
theorem C2_witness :
    AccessorSubjects.matches
        ⟨[112233, NOC_CAT_SUBJECT_MARK ||| gen_noc_cat 43981 3, 0, 0]⟩
        (NOC_CAT_SUBJECT_MARK ||| gen_noc_cat 43981 2) = true ∧
      AccessorSubjects.matches
        ⟨[112233, NOC_CAT_SUBJECT_MARK ||| gen_noc_cat 43981 3, 0, 0]⟩
        (NOC_CAT_SUBJECT_MARK ||| gen_noc_cat 51966 2) = false := by
  have h := C2_cat_version_monotonicity 112233 43981 3 2 (by norm_num) (by norm_num)
    (by norm_num) (by decide)
    ⟨[112233, NOC_CAT_SUBJECT_MARK ||| gen_noc_cat 43981 3, 0, 0]⟩ rfl
  exact ⟨h.1.trans (by decide), h.2 51966 2 (by norm_num) (by norm_num) (by decide)⟩

end MatterAcl
